import Mathlib

/-
Verification of the Feature state-container factory (panel feature module).
The JavaScript source is embedded shallowly: JS values become an inductive
type, the mutable feature state becomes a record passed explicitly, async
network collaborators (panel.open, panel.get, panel.post, panel.url) become
oracle parameters, and thrown errors become Except values.
-/

set_option autoImplicit false

mutual
/-- Shallow embedding of the JavaScript values the feature code manipulates.
Functions are represented by numeric identifiers; their behaviour is supplied
separately by an interpretation `Nat → List JSVal → JSVal` where a claim needs
to invoke them. Objects are finite sequences of named fields. -/
inductive JSVal where
  | null
  | undef
  | bool (b : Bool)
  | num (n : Int)
  | str (s : String)
  | fn (id : Nat)
  | obj (fields : JSFields)
  deriving DecidableEq

/-- The field list of an object value. -/
inductive JSFields where
  | nil
  | cons (key : String) (value : JSVal) (rest : JSFields)
  deriving DecidableEq
end

/-- View of an object field list as a list of key and value pairs. -/
def JSFields.toList : JSFields → List (String × JSVal)
  | .nil => []
  | .cons k v r => (k, v) :: r.toList

/-- Build an object field list from a list of key and value pairs. -/
def JSFields.ofList : List (String × JSVal) → JSFields
  | [] => .nil
  | (k, v) :: r => .cons k v (JSFields.ofList r)

/-- Convenience constructor for object literals. -/
def jobj (l : List (String × JSVal)) : JSVal :=
  .obj (JSFields.ofList l)

/-- JS `typeof v === "function"`. -/
def isFunction : JSVal → Bool
  | .fn _ => true
  | _ => false

/-- JS `typeof v === "string"`. -/
def isString : JSVal → Bool
  | .str _ => true
  | _ => false

/-- Modelled from the spec: the helper `isObject` from `@/helpers/object` is
imported by the feature module but its source is not in the repository
snapshot. The spec describes its use as detecting mapping input
("silently ignores non-mapping input"), so it holds exactly of object values. -/
def isObject : JSVal → Bool
  | .obj _ => true
  | _ => false

/-- JS truthiness of a value (`!v` is the negation of this). -/
def truthy : JSVal → Bool
  | .null => false
  | JSVal.undef => false
  | .bool b => b
  | .num n => n != 0
  | .str s => s != ""
  | .fn _ => true
  | .obj _ => true

/-- JS property read `v[k]` on an object value: the last occurrence of a
duplicated key wins, matching object literal construction. Returns `none`
when the field is absent or the value is not an object (property reads on
non-null primitives yield `undefined`). -/
def objGet (v : JSVal) (k : String) : Option JSVal :=
  match v with
  | .obj fields => fields.toList.foldl (fun acc p => if p.1 = k then some p.2 else acc) none
  | _ => none

/-- JS nullish coalescing `a ?? b`. -/
def nullish (a b : JSVal) : JSVal :=
  match a with
  | .null => b
  | JSVal.undef => b
  | _ => a

/-- JS optional chain `v?.k`, yielding `undefined` when `v` is nullish or the
field is absent. -/
def optChain (v : JSVal) (k : String) : JSVal :=
  match v with
  | .null => JSVal.undef
  | JSVal.undef => JSVal.undef
  | _ => (objGet v k).getD JSVal.undef

/-- The reactive state of one feature, with exactly the fields seeded by
`defaults()` in the source. The `on` field is the listener map, modelled as a
lookup function from event names to the stored value (absent entries are
`none`). `isLoading` is kept as a `JSVal` like the other fields because the
merge in `set` can write arbitrary values into any field. -/
structure FeatureState where
  component : JSVal
  isLoading : JSVal
  «on» : String → Option JSVal
  path : JSVal
  props : JSVal
  query : JSVal
  referrer : JSVal
  timestamp : JSVal

/-- The `defaults()` record from the source: component null, not loading,
no listeners, path null, empty props and query, referrer and timestamp null. -/
def defaultsState : FeatureState where
  component := .null
  isLoading := .bool false
  «on» := fun _ => none
  path := .null
  props := .obj .nil
  query := .obj .nil
  referrer := .null
  timestamp := .null

/-- The for-in loop body of `addEventListeners`: walk the entries of the
listeners object in order, registering each value that is a function under its
event name (overwriting earlier handlers for the same name) and skipping
non-function values. -/
def registerAll (m : String → Option JSVal) (fields : List (String × JSVal)) :
    String → Option JSVal :=
  fields.foldl
    (fun acc p =>
      if isFunction p.2 then (fun e => if e = p.1 then some p.2 else acc e) else acc)
    m

/-- Source `addEventListeners(listeners)`: returns without change when
`listeners` is not an object, otherwise registers every function-valued entry
into `on`. -/
def addEventListeners (s : FeatureState) (listeners : JSVal) : FeatureState :=
  match listeners with
  | .obj fields => { s with «on» := registerAll s.«on» fields.toList }
  | _ => s

/-- Source `hasEventListener(event)`: `typeof this.on[event] === "function"`. -/
def hasEventListener (s : FeatureState) (event : String) : Bool :=
  isFunction ((s.«on» event).getD JSVal.undef)

/-- The fresh dummy listener `() => {}` that `emit` returns when no handler is
registered: a function value that does nothing. It is identified with function
id 0 and never invoked by the embedded code. -/
def noopListener : JSVal := .fn 0

/-- Source `emit(event, ...args)`: when a handler is registered for the event
it is invoked with the arguments (via the interpretation `interp`) and its
result returned; otherwise the dummy listener is returned. -/
def emit (interp : Nat → List JSVal → JSVal) (s : FeatureState) (event : String)
    (args : List JSVal) : JSVal :=
  match s.«on» event with
  | some (.fn id) => interp id args
  | _ => noopListener

/-- Source `hasSubmitter()`: true when a submit listener is registered, or when
`typeof this.path === "string"`. -/
def hasSubmitter (s : FeatureState) : Bool :=
  if hasEventListener s "submit" then true
  else if isString s.path then true
  else false

/-- Modelled from the spec: the base `Module` container (`module.js`) is
imported by the feature module but its source is not in the repository
snapshot. Per the spec, `set(input)` merges a full or partial state record
over the existing state shallow-field-by-field, replacing the value of every
key present in the input and leaving keys absent from the input untouched.
The listener field receives the raw `on` value of the input (read as a lookup
map); `Feature.set` below immediately overrides it, as in the source. -/
def moduleSet (s : FeatureState) (input : JSVal) : FeatureState where
  component := (objGet input "component").getD s.component
  isLoading := (objGet input "isLoading").getD s.isLoading
  «on» := match objGet input "on" with
    | some v => fun e => objGet v e
    | none => s.«on»
  path := (objGet input "path").getD s.path
  props := (objGet input "props").getD s.props
  query := (objGet input "query").getD s.query
  referrer := (objGet input "referrer").getD s.referrer
  timestamp := (objGet input "timestamp").getD s.timestamp

/-- Source `set(state)` of Feature: delegate to the base merge, reset the
listener map to empty, then register the listeners of `state.on ?? {}`.
The source returns `this.state()`; the model returns the updated state, which
is that snapshot. -/
def featureSet (s : FeatureState) (input : JSVal) : FeatureState :=
  let merged := moduleSet s input
  let cleared := { merged with «on» := fun _ => none }
  addEventListeners cleared (nullish ((objGet input "on").getD JSVal.undef) (.obj .nil))

/-- The value actually submitted by `post`: the explicit argument if not
nullish, else `this.props?.value`, else an empty record. -/
def resolvedValue (s : FeatureState) (value : JSVal) : JSVal :=
  nullish value (nullish (optChain s.props "value") (.obj .nil))

/-- Outcome of one `post` call: the value returned or the message of the
error thrown, the feature state after the call, and the errors forwarded to
the external `panel.notification.error` collaborator. -/
structure PostResult where
  outcome : Except String JSVal
  state : FeatureState
  notified : List JSVal

/-- Source `post(value, options)`: throw when `path` is falsy; otherwise set
`isLoading`, resolve the value, call the external `panel.post` (modelled by
the oracle `panelPost`, which either returns a value or throws an error
value); a thrown transport error is forwarded to the notification collaborator
and `false` is returned; the finally block clears `isLoading` on both exits.
`key` is the feature key fixed at construction (`this.key()`). -/
def post (key : String) (s : FeatureState) (value : JSVal)
    (panelPost : JSVal → JSVal → Except JSVal JSVal) : PostResult :=
  if truthy s.path = false then
    { outcome := .error ("The " ++ key ++ " cannot be posted")
      state := s
      notified := [] }
  else
    let s1 : FeatureState := { s with isLoading := .bool true }
    match panelPost s.path (resolvedValue s value) with
    | .ok r =>
        { outcome := .ok r
          state := { s1 with isLoading := .bool false }
          notified := [] }
    | .error e =>
        { outcome := .ok (.bool false)
          state := { s1 with isLoading := .bool false }
          notified := [e] }

/-- Source `refresh(options)`: the response of the external `panel.get` call
is taken as input (the `options.url ?? this.url()` defaulting only selects the
request URL handed to that external call). The sub-record under the field
`"$" + key` is extracted; when it is falsy or its `component` differs from the
current `component` the refresh is discarded: no state change and no returned
snapshot. Otherwise only `props` is replaced and the new snapshot is returned.
The comparison `!==` of the source is modelled by structural equality of the
embedded values, which agrees with JS strict equality on the primitive values
stored in `component`. -/
def refresh (key : String) (s : FeatureState) (response : JSVal) :
    Option FeatureState × FeatureState :=
  let st := (objGet response ("$" ++ key)).getD JSVal.undef
  if truthy st = false then (none, s)
  else if ((objGet st "component").getD JSVal.undef) ≠ s.component then (none, s)
  else
    let s2 : FeatureState := { s with props := (objGet st "props").getD JSVal.undef }
    (some s2, s2)

/-- Source `load(url, options)`: set `isLoading`, await the external
`panel.open` (modelled by the oracle `panelOpen`, a transformer of this
feature state that receives the url and options), clear `isLoading`, register
`options.on`, and return the resulting state snapshot. -/
def loadF (panelOpen : JSVal → JSVal → FeatureState → FeatureState)
    (s : FeatureState) (url : JSVal) (options : JSVal) : FeatureState :=
  let s1 : FeatureState := { s with isLoading := .bool true }
  let s2 := panelOpen url options s1
  let s3 : FeatureState := { s2 with isLoading := .bool false }
  addEventListeners s3 ((objGet options "on").getD JSVal.undef)

/-- Normalisation at the top of `open`: a bare callable options argument
stands for an options record with it as submit listener. -/
def normalizeOptions (options : JSVal) : JSVal :=
  if isFunction options then jobj [("on", jobj [("submit", options)])] else options

/-- One emit performed while opening: event name, arguments, and the value the
emit call produced (the handler result, or the dummy listener). -/
structure EmitCall where
  event : String
  args : List JSVal
  result : JSVal

/-- Source `open(feature, options)`: normalise callable options; `isUrl` is
the helper from `@/helpers/url`, absent from the repository snapshot, so it is
passed as a parameter deciding whether the target is URL-like (per the spec).
On the URL path the call delegates entirely to `load`. On the literal path it
applies `set`, registers `options.on`, emits one `"open"` event with the
target and the normalised options, and returns the new snapshot. The returned
list records the emit calls performed locally. -/
def openF (interp : Nat → List JSVal → JSVal) (isUrl : JSVal → Bool)
    (panelOpen : JSVal → JSVal → FeatureState → FeatureState)
    (s : FeatureState) (target : JSVal) (options : JSVal) :
    FeatureState × List EmitCall :=
  let options := normalizeOptions options
  if isUrl target then
    (loadF panelOpen s target options, [])
  else
    let s1 := featureSet s target
    let s2 := addEventListeners s1 ((objGet options "on").getD JSVal.undef)
    (s2, [⟨"open", [target, options], emit interp s2 "open" [target, options]⟩])

/-- Source `url()`: delegates to the external url builder `panel.url` with the
feature path and query, modelled by the oracle `panelUrl`. -/
def urlF (panelUrl : JSVal → JSVal → JSVal) (s : FeatureState) : JSVal :=
  panelUrl s.path s.query

/-- Outcome of one `reload` call: the value returned, the `open` calls that
were started (target and options; the source starts `open` without awaiting
it), and the feature state as `reload` itself leaves it. -/
structure ReloadResult where
  value : JSVal
  calls : List (JSVal × JSVal)
  state : FeatureState

/-- Source `reload(options)`: return `false` without any effect when `path` is
falsy; otherwise start exactly one `open` call on the feature own url. The
un-awaited `open` call is recorded as a trace entry rather than executed, so
`state` is the state as left by `reload` itself. -/
def reloadF (panelUrl : JSVal → JSVal → JSVal) (s : FeatureState)
    (options : JSVal) : ReloadResult :=
  if truthy s.path = false then
    { value := .bool false, calls := [], state := s }
  else
    { value := JSVal.undef, calls := [(urlF panelUrl s, options)], state := s }

/-- Spec-side description of listener registration: the last function-valued
entry carrying the given event name, later entries taking precedence. This is
written from the spec wording ("registers it under `on[eventName]`,
overwriting any existing handler for that name") to be compared with the
fold performed by the source. -/
def lastFn (fields : List (String × JSVal)) (e : String) : Option JSVal :=
  match fields with
  | [] => none
  | p :: r =>
      match lastFn r e with
      | some v => some v
      | none => if e = p.1 && isFunction p.2 then some p.2 else none

/-- Spec-side description of the listener map produced from a raw `on` value:
exactly the function-valued entries of the record, empty for anything that is
not a record. -/
def specListeners (v : JSVal) (e : String) : Option JSVal :=
  match v with
  | .obj fields => lastFn fields.toList e
  | _ => none

/-- One call of the mutating feature operations quantified over in the
listener invariant: `addEventListeners`, `set`, `open` or `load`. -/
inductive FeatureOp where
  | add (listeners : JSVal)
  | assign (input : JSVal)
  | openOp (target : JSVal) (options : JSVal)
  | loadOp (url : JSVal) (options : JSVal)

/-- Apply one feature operation to a state. -/
def applyOp (interp : Nat → List JSVal → JSVal) (isUrl : JSVal → Bool)
    (panelOpen : JSVal → JSVal → FeatureState → FeatureState)
    (s : FeatureState) : FeatureOp → FeatureState
  | .add l => addEventListeners s l
  | .assign i => featureSet s i
  | .openOp t o => (openF interp isUrl panelOpen s t o).1
  | .loadOp u o => loadF panelOpen s u o

/-- Apply a sequence of feature operations from left to right. -/
def runOps (interp : Nat → List JSVal → JSVal) (isUrl : JSVal → Bool)
    (panelOpen : JSVal → JSVal → FeatureState → FeatureState)
    (s : FeatureState) (ops : List FeatureOp) : FeatureState :=
  ops.foldl (applyOp interp isUrl panelOpen) s

/-- The listener invariant: every value stored in the `on` map is callable. -/
def listenersCallable (s : FeatureState) : Prop :=
  ∀ e v, s.«on» e = some v → isFunction v = true


theorem registerAll_lookup (fields : List (String × JSVal))
    (m : String → Option JSVal) (e : String) :
    registerAll m fields e =
      match lastFn fields e with
      | some v => some v
      | none => m e := by
  induction fields generalizing m with
  | nil => rfl
  | cons p r ih =>
      have h : registerAll m (p :: r) e =
          registerAll
            (if isFunction p.2 = true then (fun x => if x = p.1 then some p.2 else m x) else m)
            r e := rfl
      have h2 : lastFn (p :: r) e =
          match lastFn r e with
          | some v => some v
          | none => if e = p.1 && isFunction p.2 then some p.2 else none := rfl
      rw [h, ih, h2]
      cases hl : lastFn r e with
      | some v => rfl
      | none =>
          by_cases hf : isFunction p.2 = true
          · by_cases he : e = p.1
            · simp [hf, he]
            · simp [hf, he]
          · simp [hf]

theorem lastFn_isFunction (fields : List (String × JSVal)) (e : String)
    (v : JSVal) (h : lastFn fields e = some v) : isFunction v = true := by
  induction fields with
  | nil => simp [lastFn] at h
  | cons p r ih =>
      rw [lastFn] at h
      cases hl : lastFn r e with
      | some w =>
          rw [hl] at h
          injection h with h
          subst h
          exact ih hl
      | none =>
          rw [hl] at h
          by_cases hc : (e = p.1 && isFunction p.2) = true
          · rw [if_pos hc] at h
            injection h with h
            subst h
            exact ((Bool.and_eq_true _ _).mp hc).2
          · rw [if_neg hc] at h
            exact absurd h (by simp)

theorem specListeners_nullish (x : JSVal) (e : String) :
    specListeners (nullish x (.obj .nil)) e = specListeners x e := by
  cases x <;> rfl

theorem featureSet_on (s : FeatureState) (input : JSVal) (e : String) :
    (featureSet s input).«on» e =
      specListeners ((objGet input "on").getD JSVal.undef) e := by
  rw [← specListeners_nullish ((objGet input "on").getD JSVal.undef) e]
  show (addEventListeners { moduleSet s input with «on» := fun _ => none }
      (nullish ((objGet input "on").getD JSVal.undef) (.obj .nil))).«on» e = _
  generalize nullish ((objGet input "on").getD JSVal.undef) (.obj .nil) = w
  cases w with
  | obj fields =>
      show registerAll (fun _ => none) fields.toList e = lastFn fields.toList e
      rw [registerAll_lookup]
      cases h : lastFn fields.toList e <;> rfl
  | null => rfl
  | undef => rfl
  | bool b => rfl
  | num n => rfl
  | str t => rfl
  | fn id => rfl

theorem registerAll_callable (m : String → Option JSVal)
    (fields : List (String × JSVal))
    (hm : ∀ e v, m e = some v → isFunction v = true) :
    ∀ e v, registerAll m fields e = some v → isFunction v = true := by
  intro e v h
  rw [registerAll_lookup] at h
  cases hl : lastFn fields e with
  | some w =>
      rw [hl] at h
      injection h with h
      subst h
      exact lastFn_isFunction _ _ _ hl
  | none =>
      rw [hl] at h
      exact hm e v h

theorem specListeners_isFunction (x : JSVal) (e : String) (v : JSVal)
    (h : specListeners x e = some v) : isFunction v = true := by
  cases x with
  | obj fields => exact lastFn_isFunction _ _ _ h
  | null => exact absurd h (by simp [specListeners])
  | undef => exact absurd h (by simp [specListeners])
  | bool b => exact absurd h (by simp [specListeners])
  | num n => exact absurd h (by simp [specListeners])
  | str t => exact absurd h (by simp [specListeners])
  | fn id => exact absurd h (by simp [specListeners])

theorem addEventListeners_callable (s : FeatureState) (l : JSVal)
    (hs : listenersCallable s) : listenersCallable (addEventListeners s l) := by
  cases l with
  | obj fields => exact registerAll_callable _ _ hs
  | null => exact hs
  | undef => exact hs
  | bool b => exact hs
  | num n => exact hs
  | str t => exact hs
  | fn id => exact hs

theorem featureSet_callable (s : FeatureState) (input : JSVal) :
    listenersCallable (featureSet s input) := by
  intro e v h
  rw [featureSet_on] at h
  exact specListeners_isFunction _ _ _ h

theorem loadF_callable (po : JSVal → JSVal → FeatureState → FeatureState)
    (s : FeatureState) (u o : JSVal)
    (hs : listenersCallable s)
    (hpo : ∀ u o st, listenersCallable st → listenersCallable (po u o st)) :
    listenersCallable (loadF po s u o) := by
  refine addEventListeners_callable _ _ ?_
  exact hpo u o { s with isLoading := .bool true } hs

theorem openF_callable (interp : Nat → List JSVal → JSVal)
    (isU : JSVal → Bool) (po : JSVal → JSVal → FeatureState → FeatureState)
    (s : FeatureState) (t o : JSVal)
    (hs : listenersCallable s)
    (hpo : ∀ u o st, listenersCallable st → listenersCallable (po u o st)) :
    listenersCallable (openF interp isU po s t o).1 := by
  unfold openF
  by_cases h : isU t = true
  · simp only [h, if_true]
    exact loadF_callable _ _ _ _ hs hpo
  · simp only [eq_false_of_ne_true h, if_false]
    exact addEventListeners_callable _ _ (featureSet_callable s t)

theorem applyOp_callable (interp : Nat → List JSVal → JSVal)
    (isU : JSVal → Bool) (po : JSVal → JSVal → FeatureState → FeatureState)
    (s : FeatureState) (op : FeatureOp)
    (hs : listenersCallable s)
    (hpo : ∀ u o st, listenersCallable st → listenersCallable (po u o st)) :
    listenersCallable (applyOp interp isU po s op) := by
  cases op with
  | add l => exact addEventListeners_callable _ _ hs
  | assign i => exact featureSet_callable _ _
  | openOp t o => exact openF_callable _ _ _ _ _ _ hs hpo
  | loadOp u o => exact loadF_callable _ _ _ _ hs hpo

theorem runOps_callable (interp : Nat → List JSVal → JSVal)
    (isU : JSVal → Bool) (po : JSVal → JSVal → FeatureState → FeatureState)
    (ops : List FeatureOp) (s : FeatureState)
    (hs : listenersCallable s)
    (hpo : ∀ u o st, listenersCallable st → listenersCallable (po u o st)) :
    listenersCallable (runOps interp isU po s ops) := by
  induction ops generalizing s with
  | nil => exact hs
  | cons op r ih => exact ih _ (applyOp_callable _ _ _ _ _ hs hpo)

theorem isString_iff (v : JSVal) : isString v = true ↔ ∃ t, v = .str t := by
  cases v <;> simp [isString]

theorem hasSubmitter_eq (s : FeatureState) :
    hasSubmitter s = (hasEventListener s "submit" || isString s.path) := by
  unfold hasSubmitter
  by_cases h1 : hasEventListener s "submit" = true <;>
    by_cases h2 : isString s.path = true <;> simp [h1, h2]

/-- Feature state whose path is the empty string and which has no listeners;
the source still reports it as submittable. -/
def emptyPathState : FeatureState := { defaultsState with path := .str "" }

/-- C1, counterexample: as stated the claim fails on a feature whose `path` is
the empty string: `hasSubmitter()` returns true although no submit listener is
registered and the path is not a non-empty string, because the source only
checks `typeof this.path === "string"`. -/
theorem claim_C1_counterexample :
    ¬ (hasSubmitter emptyPathState = true ↔
        (hasEventListener emptyPathState "submit" = true ∨
          ∃ t, emptyPathState.path = .str t ∧ t ≠ "")) := by
  intro h
  have h1 : hasSubmitter emptyPathState = true := rfl
  rcases h.mp h1 with h2 | ⟨t, ht, hne⟩
  · have h3 : hasEventListener emptyPathState "submit" = false := rfl
    rw [h3] at h2
    exact Bool.false_ne_true h2
  · have hp : emptyPathState.path = JSVal.str "" := rfl
    rw [hp] at ht
    injection ht with ht
    exact hne ht.symm

/-- C1 (amended): `hasSubmitter()` returns true if and only if a callable
submit listener is registered in `on`, or `path` is a string (the empty string
included); in particular it returns false on a freshly defaulted feature. -/
theorem claim_C1_hasSubmitter :
    (∀ s, hasSubmitter s = true ↔
      (hasEventListener s "submit" = true ∨ ∃ t, s.path = .str t)) ∧
    hasSubmitter defaultsState = false := by
  constructor
  · intro s
    rw [hasSubmitter_eq, Bool.or_eq_true, isString_iff]
  · rfl

/-- C2: `post` on a feature whose path is unset (falsy) throws an error whose
message contains the feature key, the throw propagates as the outcome of the
call, and no state field is modified before the throw, so `isLoading` is still
false after the call whenever it was false before. -/
theorem claim_C2_post_without_path (key : String) (s : FeatureState)
    (value : JSVal) (panelPost : JSVal → JSVal → Except JSVal JSVal)
    (h : truthy s.path = false) :
    (∃ a b, (post key s value panelPost).outcome = .error (a ++ key ++ b)) ∧
    (post key s value panelPost).state = s ∧
    (s.isLoading = .bool false →
      (post key s value panelPost).state.isLoading = .bool false) := by
  unfold post
  rw [if_pos h]
  exact ⟨⟨"The ", " cannot be posted", rfl⟩, rfl, fun h2 => h2⟩

/-- C2, witness at a concrete input: a freshly defaulted feature named dialog. -/
theorem claim_C2_witness :
    (∃ a b, (post "dialog" defaultsState JSVal.undef
        (fun _ _ => .ok .null)).outcome = .error (a ++ "dialog" ++ b)) ∧
    (post "dialog" defaultsState JSVal.undef (fun _ _ => .ok .null)).state =
      defaultsState ∧
    (defaultsState.isLoading = .bool false →
      (post "dialog" defaultsState JSVal.undef
        (fun _ _ => .ok .null)).state.isLoading = .bool false) :=
  claim_C2_post_without_path "dialog" defaultsState JSVal.undef (fun _ _ => .ok .null) rfl

/-- C3: with path set, an error thrown by the external `panel.post` call is
forwarded to `panel.notification.error`, not rethrown (the outcome is a normal
return), and the call returns false; and in every outcome, success or caught
error, `isLoading` is false after `post` returns. -/
theorem claim_C3_post_error_swallowed (key : String) (s : FeatureState)
    (value : JSVal) (panelPost : JSVal → JSVal → Except JSVal JSVal)
    (h : truthy s.path = true) :
    (post key s value panelPost).state.isLoading = .bool false ∧
    (∀ e, panelPost s.path (resolvedValue s value) = .error e →
      (post key s value panelPost).outcome = .ok (.bool false) ∧
      (post key s value panelPost).notified = [e]) := by
  constructor
  · unfold post
    rw [if_neg (by simp [h])]
    cases hp : panelPost s.path (resolvedValue s value) with
    | ok r => rfl
    | error e => rfl
  · intro e he
    unfold post
    rw [if_neg (by simp [h]), he]
    exact ⟨rfl, rfl⟩

/-- Feature state with a set path, used as concrete input for witnesses. -/
def pathSetState : FeatureState := { defaultsState with path := .str "/x" }

/-- C3, witness at a concrete input: a feature with path `/x` whose transport
call throws. -/
theorem claim_C3_witness :
    (post "dialog" pathSetState JSVal.undef
      (fun _ _ => .error (.str "boom"))).state.isLoading = .bool false ∧
    (∀ e, (fun _ _ => Except.error (JSVal.str "boom") :
          JSVal → JSVal → Except JSVal JSVal) pathSetState.path
          (resolvedValue pathSetState JSVal.undef) = .error e →
      (post "dialog" pathSetState JSVal.undef
        (fun _ _ => .error (.str "boom"))).outcome = .ok (.bool false) ∧
      (post "dialog" pathSetState JSVal.undef
        (fun _ _ => .error (.str "boom"))).notified = [e]) :=
  claim_C3_post_error_swallowed "dialog" pathSetState JSVal.undef
    (fun _ _ => .error (.str "boom")) rfl

/-- C4: with a response whose keyed field, when present, is a sub-record (the
response shape the spec fixes for refresh), `refresh` discards the response
without touching any state field and without returning a snapshot when the
field named dollar-key is absent or its component differs from the current
component; otherwise it replaces exactly `props` with the response props,
leaves every other field unchanged, and returns the updated snapshot. No error
is raised in either case (the model is a total function). -/
theorem claim_C4_refresh (key : String) (s : FeatureState) (response : JSVal)
    (hshape : isObject ((objGet response ("$" ++ key)).getD (.obj .nil)) = true) :
    (objGet response ("$" ++ key) = none → refresh key s response = (none, s)) ∧
    (∀ v, objGet response ("$" ++ key) = some v →
      (objGet v "component").getD JSVal.undef ≠ s.component →
      refresh key s response = (none, s)) ∧
    (∀ v, objGet response ("$" ++ key) = some v →
      (objGet v "component").getD JSVal.undef = s.component →
      refresh key s response =
        (some { s with props := (objGet v "props").getD JSVal.undef },
         { s with props := (objGet v "props").getD JSVal.undef })) := by
  refine ⟨?_, ?_, ?_⟩
  · intro h0
    unfold refresh
    rw [h0]
    rfl
  · intro v hv hne
    unfold refresh
    rw [hv] at hshape ⊢
    rw [Option.getD_some] at hshape ⊢
    cases v with
    | obj g =>
        rw [if_neg (by simp [truthy]), if_pos hne]
    | null => simp [isObject] at hshape
    | undef => simp [isObject] at hshape
    | bool b => simp [isObject] at hshape
    | num n => simp [isObject] at hshape
    | str t => simp [isObject] at hshape
    | fn id => simp [isObject] at hshape
  · intro v hv heq
    unfold refresh
    rw [hv] at hshape ⊢
    rw [Option.getD_some] at hshape ⊢
    cases v with
    | obj g =>
        rw [if_neg (by simp [truthy]), if_neg (fun hc => hc heq)]
    | null => simp [isObject] at hshape
    | undef => simp [isObject] at hshape
    | bool b => simp [isObject] at hshape
    | num n => simp [isObject] at hshape
    | str t => simp [isObject] at hshape
    | fn id => simp [isObject] at hshape

/-- Response record used as concrete input for the refresh witness: it carries
the sub-record for the key `dialog` with a matching component. -/
def refreshResponse : JSVal :=
  jobj [("$dialog", jobj [("component", .null), ("props", jobj [("a", .num 1)])])]

/-- C4, witness at a concrete input: a defaulted dialog feature refreshed with
a matching response. -/
theorem claim_C4_witness :
    (objGet refreshResponse ("$" ++ "dialog") = none →
      refresh "dialog" defaultsState refreshResponse = (none, defaultsState)) ∧
    (∀ v, objGet refreshResponse ("$" ++ "dialog") = some v →
      (objGet v "component").getD JSVal.undef ≠ defaultsState.component →
      refresh "dialog" defaultsState refreshResponse = (none, defaultsState)) ∧
    (∀ v, objGet refreshResponse ("$" ++ "dialog") = some v →
      (objGet v "component").getD JSVal.undef = defaultsState.component →
      refresh "dialog" defaultsState refreshResponse =
        (some { defaultsState with props := (objGet v "props").getD JSVal.undef },
         { defaultsState with props := (objGet v "props").getD JSVal.undef })) :=
  claim_C4_refresh "dialog" defaultsState refreshResponse (by decide)

/-- C5: for every prior listener map and every input record, the Feature `set`
leaves the `on` map containing exactly the callable entries of the input `on`
record (empty when it is absent or not a record): the lookup of the resulting
map agrees everywhere with the spec-side map of callable entries, so every
previously registered listener not re-supplied is dropped. The source returns
`this.state()`; the model returns exactly the updated state as that snapshot. -/
theorem claim_C5_set_listeners (s : FeatureState) (fields : JSFields)
    (e : String) :
    (featureSet s (.obj fields)).«on» e =
      specListeners ((objGet (.obj fields) "on").getD JSVal.undef) e :=
  featureSet_on s (.obj fields) e

/-- C6: `addEventListeners` returns without change on non-object input; on
object input the resulting map holds, for each event name, the last callable
entry of the input under that name, falling back to the previously registered
handler (so callable entries overwrite, and non-callable entries are skipped
without removing an existing handler); re-registering `submit` makes `emit`
invoke the newest handler. -/
theorem claim_C6_addEventListeners :
    (∀ s v, isObject v = false → addEventListeners s v = s) ∧
    (∀ s fields e, (addEventListeners s (.obj fields)).«on» e =
      match lastFn fields.toList e with
      | some v => some v
      | none => s.«on» e) ∧
    (∀ (interp : Nat → List JSVal → JSVal) s (args : List JSVal) f1 f2,
      emit interp
        (addEventListeners (addEventListeners s (jobj [("submit", .fn f1)]))
          (jobj [("submit", .fn f2)]))
        "submit" args = interp f2 args) := by
  refine ⟨?_, ?_, ?_⟩
  · intro s v h
    cases v with
    | obj g => simp [isObject] at h
    | null => rfl
    | undef => rfl
    | bool b => rfl
    | num n => rfl
    | str t => rfl
    | fn id => rfl
  · intro s fields e
    show registerAll s.«on» fields.toList e = _
    exact registerAll_lookup _ _ _
  · intro interp s args f1 f2
    have h : (addEventListeners (addEventListeners s (jobj [("submit", .fn f1)]))
        (jobj [("submit", .fn f2)])).«on» "submit" = some (.fn f2) := rfl
    unfold emit
    rw [h]

/-- C6, witness at a concrete input: a non-object argument leaves the state
unchanged. -/
theorem claim_C6_witness :
    addEventListeners defaultsState (.str "nope") = defaultsState :=
  claim_C6_addEventListeners.1 defaultsState (.str "nope") rfl

/-- C7: when a handler is registered for the event, `emit` invokes it with
exactly the given arguments and returns the handler result; when no handler is
registered it does not throw and returns the dummy no-op listener function. -/
theorem claim_C7_emit (interp : Nat → List JSVal → JSVal) (s : FeatureState)
    (event : String) (args : List JSVal) :
    (hasEventListener s event = true →
      ∃ id, s.«on» event = some (.fn id) ∧
        emit interp s event args = interp id args) ∧
    (hasEventListener s event = false →
      emit interp s event args = noopListener) := by
  constructor
  · intro h
    unfold hasEventListener at h
    cases hv : s.«on» event with
    | none => rw [hv] at h; simp [isFunction] at h
    | some v =>
        rw [hv, Option.getD_some] at h
        cases v with
        | fn id => exact ⟨id, rfl, by unfold emit; rw [hv]⟩
        | null => simp [isFunction] at h
        | undef => simp [isFunction] at h
        | bool b => simp [isFunction] at h
        | num n => simp [isFunction] at h
        | str t => simp [isFunction] at h
        | obj g => simp [isFunction] at h
  · intro h
    unfold hasEventListener at h
    unfold emit
    cases hv : s.«on» event with
    | none => rfl
    | some v =>
        rw [hv, Option.getD_some] at h
        cases v with
        | fn id => simp [isFunction] at h
        | null => rfl
        | undef => rfl
        | bool b => rfl
        | num n => rfl
        | str t => rfl
        | obj g => rfl

/-- C7, witness at a concrete input: emit on a defaulted feature with no
handler returns the dummy listener. -/
theorem claim_C7_witness :
    emit (fun _ _ => .null) defaultsState "submit" [] = noopListener :=
  (claim_C7_emit (fun _ _ => .null) defaultsState "submit" []).2 rfl

/-- C8: `open` with a callable options argument behaves exactly as `open` with
an options record holding it as submit listener; when the target is URL-like
it delegates entirely to `load`; when the target is a literal state object the
call performs no network request (the result does not depend on the external
panel.open oracle), and applies, in order, `set(target)` (clearing prior
listeners), listener registration from `options.on`, and a single `"open"`
emit carrying the target and options, returning the new snapshot. -/
theorem claim_C8_open :
    (∀ (interp : Nat → List JSVal → JSVal) (isU : JSVal → Bool) po s t f,
      openF interp isU po s t (.fn f) =
        openF interp isU po s t (jobj [("on", jobj [("submit", .fn f)])])) ∧
    (∀ (interp : Nat → List JSVal → JSVal) (isU : JSVal → Bool) po s t o,
      isU t = true → isFunction o = false →
      openF interp isU po s t o = (loadF po s t o, [])) ∧
    (∀ (interp : Nat → List JSVal → JSVal) (isU : JSVal → Bool) po po' s t o,
      isU t = false →
      openF interp isU po s t o = openF interp isU po' s t o) ∧
    (∀ (interp : Nat → List JSVal → JSVal) (isU : JSVal → Bool) po s t o,
      isU t = false → isFunction o = false →
      openF interp isU po s t o =
        (addEventListeners (featureSet s t) ((objGet o "on").getD JSVal.undef),
         [⟨"open", [t, o],
           emit interp
             (addEventListeners (featureSet s t) ((objGet o "on").getD JSVal.undef))
             "open" [t, o]⟩])) := by
  refine ⟨?_, ?_, ?_, ?_⟩
  · intro interp isU po s t f
    rfl
  · intro interp isU po s t o h1 h2
    simp [openF, normalizeOptions, h1, h2]
  · intro interp isU po po' s t o h1
    simp [openF, h1]
  · intro interp isU po s t o h1 h2
    simp [openF, normalizeOptions, h1, h2]

/-- State object used as concrete open target in the C8 witness: it carries an
open listener of its own. -/
def openTarget : JSVal :=
  jobj [("component", .str "k-page-view"), ("on", jobj [("open", .fn 7)])]

/-- C8, witness at a concrete input: opening a literal state object with no
options performs the set, registration and single open emit. URL-likeness is
instantiated with string-ness, under which an object target is literal. -/
theorem claim_C8_witness :
    openF (fun id _args => jobj [("id", .num (Int.ofNat id))]) isString
        (fun _ _ st => st) defaultsState openTarget .null =
      (addEventListeners (featureSet defaultsState openTarget)
        ((objGet JSVal.null "on").getD JSVal.undef),
       [⟨"open", [openTarget, .null],
         emit (fun id _args => jobj [("id", .num (Int.ofNat id))])
           (addEventListeners (featureSet defaultsState openTarget)
             ((objGet JSVal.null "on").getD JSVal.undef))
           "open" [openTarget, .null]⟩]) :=
  claim_C8_open.2.2.2 (fun id _args => jobj [("id", .num (Int.ofNat id))])
    isString (fun _ _ st => st) defaultsState openTarget .null rfl rfl

/-- C9: `reload` on a feature whose path is unset returns false with no state
change and no open call started; with a set path it starts exactly one open
call targeting the feature own computed url (path and query through the
external url builder) and performs no direct state mutation itself. -/
theorem claim_C9_reload (panelUrl : JSVal → JSVal → JSVal) (s : FeatureState)
    (options : JSVal) :
    (truthy s.path = false →
      reloadF panelUrl s options = ⟨.bool false, [], s⟩) ∧
    (truthy s.path = true →
      (reloadF panelUrl s options).calls = [(urlF panelUrl s, options)] ∧
      (reloadF panelUrl s options).state = s) := by
  constructor
  · intro h
    unfold reloadF
    rw [if_pos h]
  · intro h
    unfold reloadF
    rw [if_neg (by simp [h])]
    exact ⟨rfl, rfl⟩

/-- C9, witness at a concrete input: a feature with path `/x`. -/
theorem claim_C9_witness :
    (reloadF (fun p q => jobj [("path", p), ("query", q)]) pathSetState
        .null).calls =
      [(urlF (fun p q => jobj [("path", p), ("query", q)]) pathSetState,
        .null)] ∧
    (reloadF (fun p q => jobj [("path", p), ("query", q)]) pathSetState
        .null).state = pathSetState :=
  (claim_C9_reload (fun p q => jobj [("path", p), ("query", q)]) pathSetState
    .null).2 rfl

/-- C10 (invariant not stated by the spec): starting from the default state,
after any sequence of addEventListeners, set, open and load calls, every value
stored in the `on` map is callable, so emit never invokes a non-function. The
external panel.open collaborator awaited by `load` is assumed to preserve the
invariant, since it mutates features only through these same operations. -/
theorem claim_C10_listeners_callable (interp : Nat → List JSVal → JSVal)
    (isU : JSVal → Bool) (po : JSVal → JSVal → FeatureState → FeatureState)
    (ops : List FeatureOp)
    (hpo : ∀ u o st, listenersCallable st → listenersCallable (po u o st)) :
    listenersCallable (runOps interp isU po defaultsState ops) :=
  runOps_callable interp isU po ops defaultsState
    (fun _ _ h => Option.noConfusion h) hpo

/-- C10, witness at a concrete input: a sequence of all four operations, with
an identity collaborator; the surviving open listener is callable. -/
theorem claim_C10_witness :
    isFunction (((runOps (fun _ _ => .null) isString (fun _ _ st => st)
        defaultsState
        [.openOp (jobj []) .null, .loadOp (.str "/x") .null,
         .add (jobj [("submit", .fn 1), ("x", .num 3)]),
         .assign (jobj [("on", jobj [("open", .fn 2)])])]).«on»
          "open").getD JSVal.undef) = true := by
  have h := claim_C10_listeners_callable (fun _ _ => .null) isString
    (fun _ _ st => st)
    [.openOp (jobj []) .null, .loadOp (.str "/x") .null,
     .add (jobj [("submit", .fn 1), ("x", .num 3)]),
     .assign (jobj [("on", jobj [("open", .fn 2)])])]
    (fun _ _ _ hh => hh)
  have h2 : (runOps (fun _ _ => .null) isString (fun _ _ st => st)
      defaultsState
      [.openOp (jobj []) .null, .loadOp (.str "/x") .null,
       .add (jobj [("submit", .fn 1), ("x", .num 3)]),
       .assign (jobj [("on", jobj [("open", .fn 2)])])]).«on» "open" =
      some (.fn 2) := by decide
  rw [h2, Option.getD_some]
  exact h "open" (.fn 2) h2
